import Mathlib

/-!
Verification development for the peer-topology and chain-synchronization core
of a peer-to-peer blockchain node (`yadacoin/core/peer.py` and
`yadacoin/yadawebsocketclient.py`).

The Python source is shallowly embedded: classes become structures, the
role-dispatched `type_limit` tables become a function on a closed `Role`
type, the async handlers of the websocket client become pure state
transformers that additionally return the ordered list of observable
effects (consensus calls, gossip, outgoing protocol messages), and the
external consensus collaborator is abstracted by an oracle assigning each
block an outcome (import succeeded / import returned false / an exception
was raised).
-/

namespace Yada

/-! ## Roles and the role table (`peer.py`, classes Seed .. Miner) -/

/-- The closed set of peer role variants (the five `Peer` subclasses). -/
inductive Role where
  | seed
  | seedGateway
  | serviceProvider
  | user
  | miner
deriving DecidableEq, Repr

/-- Limit table `type_limit` of each `Peer` subclass: `type_limit A B` is the connection
limit class `A` imposes for peers of class `B`.  Transcribed from the five
`type_limit` classmethods in `peer.py` (each returns 0 in its `else` arm). -/
def type_limit : Role → Role → Nat
  | .seed, .seed => 100000
  | .seed, .seedGateway => 1
  | .seedGateway, .seed => 1
  | .seedGateway, .serviceProvider => 1
  | .serviceProvider, .seedGateway => 1
  | .serviceProvider, .user => 1
  | .user, .serviceProvider => 1
  | .miner, .serviceProvider => 1
  | _, _ => 0

/-- Outbound class `get_outbound_class` of each `Peer` subclass. -/
def get_outbound_class : Role → Role
  | .seed => .seed
  | .seedGateway => .seed
  | .serviceProvider => .seedGateway
  | .user => .serviceProvider
  | .miner => .serviceProvider

/-- Inbound class `get_inbound_class` of each `Peer` subclass. -/
def get_inbound_class : Role → Role
  | .seed => .seedGateway
  | .seedGateway => .serviceProvider
  | .serviceProvider => .user
  | .user => .user
  | .miner => .user

/-! ## Identity and Peer serialization (`peer.py`: `Peer.from_dict`,
`Peer.to_dict`; `Identity` lives outside the provided sources) -/

/-- Modelled from the spec: `Identity` (`yadacoin.core.identity`) is not part
of the provided sources; the spec gives its record as
{username, username_signature, public_key}. -/
structure Identity where
  username : String
  username_signature : String
  public_key : String
deriving DecidableEq, Repr

/-- Modelled from the spec: `Identity.from_dict`/`Identity.to_dict` map the
identity record to/from its three fields verbatim; here the dictionary is the
structure itself, so both directions are the identity function. -/
def Identity.from_dict (d : Identity) : Identity := d

/-- Modelled from the spec: see `Identity.from_dict`. -/
def Identity.to_dict (i : Identity) : Identity := i

/-- A `Peer` object (`peer.py`, `Peer.__init__`): host, port, identity and the
optional seed / seed_gateway backreferences.  The ambient `config` and logger
held by the Python object carry no peer data and are omitted. -/
structure Peer where
  host : String
  port : Nat
  identity : Identity
  seed : Option String
  seed_gateway : Option String
deriving DecidableEq, Repr

/-- The serialized form produced by `Peer.to_dict`: the five constructor
fields plus the computed `rid`. -/
structure PeerDict where
  host : String
  port : Nat
  identity : Identity
  rid : Option String
  seed : Option String
  seed_gateway : Option String
deriving DecidableEq, Repr

/-- Serialization `Peer.to_dict`.  The `rid` property reads the ambient config
(`self.identity.generate_rid(config.peer.identity.username_signature)`), so
the computed rid value is passed in as `ridVal`. -/
def Peer.to_dict (p : Peer) (ridVal : Option String) : PeerDict :=
  { host := p.host
    port := p.port
    identity := p.identity.to_dict
    rid := ridVal
    seed := p.seed
    seed_gateway := p.seed_gateway }

/-- Deserialization `Peer.from_dict`: builds a `Peer` from host, port, identity, seed and
seed_gateway; the dictionary's `rid` entry is never read. -/
def Peer.from_dict (d : PeerDict) : Peer :=
  { host := d.host
    port := d.port
    identity := Identity.from_dict d.identity
    seed := d.seed
    seed_gateway := d.seed_gateway }

/-! ## Connection manager (`peer.py`: `Peer.ensure_peers_connected`,
`Peer.connect`)

`ensure_peers_connected` reads the candidate dictionary from
`get_outbound_peers`, the limit from `type_limit(outbound_class)`, and the
current stream collection `outbound_streams ∪ outbound_pending` (both keyed by
peer key), then calls `connect`.  `connect` guards once on
`limit and len(stream_collection) < limit`, and then awaits
`nodeClient.connect` for every candidate key not already in the collection.
`nodeClient.connect` is outside the provided sources; modelled from the spec:
"issue connect(candidate), marking it pending immediately", so each attempted
candidate enters the pending set.  States are abstracted to the sets of peer
keys involved. -/

/-- The set of candidate keys for which `connect` issues a connect attempt:
`set(peers) - set(stream_collection)` when the guard
`limit and len(stream_collection) < limit` passes, nothing otherwise. -/
def connectAttempts (limit : Nat) (known cands : Finset String) : Finset String :=
  if limit ≠ 0 ∧ known.card < limit then cands \ known else ∅

/-- Operation `Peer.connect`: the stream collection (active ∪ pending keys) after the
call, each attempted candidate having been marked pending. -/
def connect (limit : Nat) (known cands : Finset String) : Finset String :=
  known ∪ connectAttempts limit known cands

/-- Operation `Peer.ensure_peers_connected` for a node of role `A`: limit is
`type_limit A (get_outbound_class A)`, `known` is
`outbound_streams ∪ outbound_pending` for the outbound class, `cands` the
keys of `get_outbound_peers`. -/
def ensure_peers_connected (A : Role) (known cands : Finset String) : Finset String :=
  connect (type_limit A (get_outbound_class A)) known cands

/-! ## Gateway selector (`peer.py`: `ServiceProvider.calculate_seed_gateway`) -/

/-- Constant `Peer.epoch` (line 14 of `peer.py`). -/
def epoch : Nat := 1602914018

/-- Constant `Peer.ttl` (line 15 of `peer.py`): the rotation interval, 259200 s. -/
def ttl : Nat := 259200

/-- One entry of `config.seed_gateways` as the selector uses it: its
dictionary key (`identity.username_signature`) and its `rid` (the value
matched against `outbound_ignore`). -/
structure GatewayRec where
  sig : String
  rid : String
deriving DecidableEq, Repr

/-- Python-level failures the selector can hit: `ZeroDivisionError` from
`% len(config.seed_gateways)` when the gateway dictionary is empty,
`IndexError` from indexing `username_signatures` past its end, and a fuel
marker (never reached from `calculate_seed_gateway`, whose fuel exceeds the
loop's possible iteration count). -/
inductive PyError where
  | zeroDivision
  | indexError
  | fuelOut
deriving DecidableEq, Repr

/-- Rotation counter `seed_time = int((time.time() - self.epoch) / self.ttl) + 1`, for a
current time `now ≥ epoch` (truncating division of a nonnegative quotient is
floor division). -/
def seedTime (now : Nat) : Nat := (now - epoch) / ttl + 1

/-- The `while` loop of `calculate_seed_gateway`, every branch transcribed:
the loop condition indexes `username_signatures[seed_select]` (IndexError
when out of range) and tests membership of that gateway's rid in the ignore
set; the body increments `seed_select`, breaks when
`num_reset and seed_select >= first_number` (after which line 201 indexes at
the current `seed_select`, another possible IndexError), and resets
`seed_select` to 0 when `seed_select >= len + 1 and first_number > 0`.
`num_reset` is never assigned `True` anywhere in the source, so it stays as
passed in.  Returns the index `seed_select` holds when the loop exits. -/
def probeLoop (gws : List GatewayRec) (ignore : List String) :
    Nat → Nat → Bool → Nat → Except PyError Nat
  | 0, _, _, _ => .error .fuelOut
  | fuel + 1, seed_select, num_reset, first_number =>
    match gws.get? seed_select with
    | none => .error .indexError
    | some g =>
      if g.rid ∈ ignore then
        let s := seed_select + 1
        if num_reset ∧ s ≥ first_number then
          -- `break  # failed to find a seed gateway`, then line 201 indexes
          -- the gateway list at the current value of `seed_select`.
          if s < gws.length then .ok s else .error .indexError
        else
          let s' := if s ≥ gws.length + 1 ∧ first_number > 0 then 0 else s
          probeLoop gws ignore fuel s' num_reset first_number
      else .ok seed_select

/-- Selector `ServiceProvider.calculate_seed_gateway`.  The hash
`int(hashlib.sha256(username_signature.encode()).hexdigest(), 16)` enters the
computation only through its unsigned big-integer value, passed here as `h`;
`now` is the current wall-clock time; `gws` is `config.seed_gateways` in
insertion order and `ignore` the rids in
`outbound_ignore[SeedGateway.__name__]`.  The `% len(config.seed_gateways)`
raises `ZeroDivisionError` on an empty gateway dictionary.  Fuel
`gws.length + 2` strictly exceeds the iterations the loop can make before
finding an entry or indexing past the end of the list. -/
def calculate_seed_gateway (h now : Nat) (gws : List GatewayRec)
    (ignore : List String) : Except PyError GatewayRec :=
  if gws.length = 0 then .error .zeroDivision
  else
    let seed_select := (h * seedTime now) % gws.length
    match probeLoop gws ignore (gws.length + 2) seed_select false seed_select with
    | .error e => .error e
    | .ok i =>
      -- line 201: `seed_gateways[list(seed_gateways)[seed_select]]`
      match gws.get? i with
      | none => .error .indexError
      | some g => .ok g

/-! ## Sync session (`yadawebsocketclient.py`)

The async handlers become pure functions from a client state to a client
state together with the ordered list of observable effects they produce and a
flag recording whether an exception escaped the handler.  The consensus
collaborator (`consensus.insert_consensus_block` / `consensus.import_block`,
outside the provided sources) is abstracted by an oracle mapping each block
to the outcome of `process_next_block` on it. -/

/-- A block as the handlers see it: its `index` entry plus a tag standing for
the rest of the payload (so two distinct blocks may share an index). -/
structure Block where
  index : Nat
  tag : Nat
deriving DecidableEq, Repr

/-- Outcome of the consensus collaborator on one block:
`ok` — `insert_consensus_block` succeeded and `import_block` returned truthy;
`failed` — `import_block` returned falsy;
`exc` — an exception was raised during insert/import. -/
inductive POutcome where
  | ok
  | failed
  | exc
deriving DecidableEq, Repr

/-- Observable effects of the block handlers, in program order. -/
inductive Effect where
  | insertConsensus (b : Block)
  | importBlock (b : Block)
  | gossip (b : Block)
  | getBlocks (startIdx endIdx : Nat)
deriving DecidableEq, Repr

/-- The client-visible shared state: the local chain head
(`config.BU.get_latest_block()['index']`, advanced by successful
`import_block` calls), the global `peers.syncing` flag, and the session's
`latest_peer_block`. -/
structure ClientState where
  head : Nat
  syncing : Bool
  latestPeerBlock : Option Block
deriving DecidableEq, Repr

/-- Method `YadaWebSocketClient.process_next_block`: always calls
`insert_consensus_block`, then (unless that raised) `import_block`, returning
`some` of the import result, or `none` when an exception propagates. -/
def process_next_block (oracle : Block → POutcome) (b : Block) :
    List Effect × Option Bool :=
  match oracle b with
  | .ok => ([.insertConsensus b, .importBlock b], some true)
  | .failed => ([.insertConsensus b, .importBlock b], some false)
  | .exc => ([.insertConsensus b], none)

/-- Result of the `for block in data` loop of
`YadaWebSocketClient.on_blocks`: the final value of the local `my_index`, the
`inserted` flag, the final value of the loop variable `block`, whether an
exception was raised inside the loop, and the effects in order. -/
structure BatchResult where
  my_index : Nat
  inserted : Bool
  lastBlock : Option Block
  excRaised : Bool
  effects : List Effect
deriving DecidableEq, Repr

/-- The `for block in data` loop of `YadaWebSocketClient.on_blocks`
(lines 133-143): blocks whose index is `my_index + 1` go through
`process_next_block`; success sets `inserted` and advances `my_index` to the
block's index; a falsy import result or an out-of-sequence block breaks the
loop; an exception aborts it. -/
def runBatch (oracle : Block → POutcome) :
    Nat → Bool → Option Block → List Block → BatchResult
  | my_index, inserted, lastB, [] =>
    ⟨my_index, inserted, lastB, false, []⟩
  | my_index, inserted, _, b :: rest =>
    if b.index = my_index + 1 then
      match process_next_block oracle b with
      | (effs, some true) =>
        let r := runBatch oracle b.index true (some b) rest
        ⟨r.my_index, r.inserted, r.lastBlock, r.excRaised, effs ++ r.effects⟩
      | (effs, some false) => ⟨my_index, inserted, some b, false, effs⟩
      | (effs, none) => ⟨my_index, inserted, some b, true, effs⟩
    else
      ⟨my_index, inserted, some b, false, []⟩

/-- Result of one handler invocation: the state when it returns, its effects
in order, and whether an exception escaped the handler itself. -/
structure HandlerResult where
  state : ClientState
  effects : List Effect
  excEscaped : Bool
deriving DecidableEq, Repr

/-- Handler `YadaWebSocketClient.on_blocks` (lines 125-161).  On empty data,
`data[0]` raises IndexError before `syncing` is set.  Otherwise, when the
first block's index is `my_index + 1`, `syncing` is set, the batch loop runs
inside `try`, on `inserted` the last loop block is gossiped
(`peers.on_block_insert(block)`) and the next batch is requested, any
exception is caught by `except`, and `finally` clears `syncing`. -/
def on_blocks (oracle : Block → POutcome) (maxB : Nat) (s : ClientState)
    (data : List Block) : HandlerResult :=
  match data with
  | [] => ⟨s, [], true⟩
  | b0 :: _ =>
    if b0.index ≠ s.head + 1 then ⟨s, [], false⟩
    else
      let r := runBatch oracle s.head false none data
      let s' : ClientState := { s with head := r.my_index, syncing := false }
      if r.excRaised then ⟨s', r.effects, false⟩
      else if r.inserted then
        match r.lastBlock with
        | some lb =>
          ⟨s', r.effects ++
              [.gossip lb, .getBlocks (r.my_index + 1) (r.my_index + 1 + maxB)],
            false⟩
        | none => ⟨s', r.effects, false⟩
      else ⟨s', r.effects, false⟩

/-- Handler `ClientChatNamespace.on_blocks` (lines 48-57): ignore while the
global `syncing` flag is set, ignore empty data, otherwise delegate to
`YadaWebSocketClient.on_blocks`. -/
def ns_on_blocks (oracle : Block → POutcome) (maxB : Nat) (s : ClientState)
    (data : List Block) : HandlerResult :=
  if s.syncing then ⟨s, [], false⟩
  else if data.length = 0 then ⟨s, [], false⟩
  else on_blocks oracle maxB s data

/-- Handler `YadaWebSocketClient.on_latest_block` (lines 97-114): store the
announced block as `latest_peer_block`; if not syncing, either import the
next block directly (gossiping it on success via `peers.on_block_insert`),
request a batch when the announcement is ahead by more than one, or ignore a
stale index. -/
def on_latest_block (oracle : Block → POutcome) (maxB : Nat) (s : ClientState)
    (b : Block) : HandlerResult :=
  let s1 : ClientState := { s with latestPeerBlock := some b }
  if s1.syncing then ⟨s1, [], false⟩
  else if b.index = s1.head + 1 then
    match process_next_block oracle b with
    | (effs, some true) => ⟨{ s1 with head := b.index }, effs ++ [.gossip b], false⟩
    | (effs, some false) => ⟨s1, effs, false⟩
    | (effs, none) => ⟨s1, effs, true⟩
  else if b.index > s1.head + 1 then
    ⟨s1, [.getBlocks (s1.head + 1) (s1.head + 1 + maxB)], false⟩
  else ⟨s1, [], false⟩

/-! ## Handshake (`ClientChatNamespace.on_connect`,
`YadaWebSocketClient.start`) -/

/-- Outgoing actions of the handshake phase. -/
inductive SessionEffect where
  | emitHello (version : Nat) (host : String) (port : Nat)
  | emitGetPeers
  | sleep (secs : Nat)
  | disconnect
deriving DecidableEq, Repr

/-- Constant `YadaWebSocketClient.WAIT_FOR_PEERS`. -/
def WAIT_FOR_PEERS : Nat := 20

/-- Handler `ClientChatNamespace.on_connect`: emit
`hello {version: 2, ip: config.peer_host, port: config.peer_port}`, then
`get_peers`. -/
def on_connect (peer_host : String) (peer_port : Nat) : List SessionEffect :=
  [.emitHello 2 peer_host peer_port, .emitGetPeers]

/-- How `YadaWebSocketClient.start` ends after the transport connect
succeeded: an early disconnect after the bounded wait, or entry into the
`while self.connected` listening loop. -/
inductive StartOutcome where
  | earlyDisconnect
  | listening
deriving DecidableEq, Repr

/-- Method `YadaWebSocketClient.start` after a successful transport connect:
sleep `WAIT_FOR_PEERS` seconds, then check whether the peer's host has been
recorded in `config.peers.outbound` (which only `peers.on_new_outbound`,
invoked from the `on_peers` handler, does); if not, disconnect and return
without entering the listening loop. -/
def start (outbound : List String) (peerHost : String) :
    StartOutcome × List SessionEffect :=
  if peerHost ∈ outbound then (.listening, [.sleep WAIT_FOR_PEERS])
  else (.earlyDisconnect, [.sleep WAIT_FOR_PEERS, .disconnect])

/-! ## Reference descriptions of batch processing, written from the spec

These four functions transcribe the spec's description of strict-order batch
processing ("iterate batch in strict order; for each block with index ==
myIndex+1, run the same insert+import path; on success advance myIndex and
continue; on first failure, stop processing the remainder of the batch") and
are compared against `runBatch` / `on_blocks`. -/

/-- Head position after strict-order processing: advanced across the maximal
prefix of consecutive successfully imported blocks. -/
def specProcessedHead (oracle : Block → POutcome) : Nat → List Block → Nat
  | h, [] => h
  | h, b :: rest =>
    if b.index = h + 1 ∧ oracle b = .ok then specProcessedHead oracle b.index rest
    else h

/-- Consensus-call sequence of strict-order processing: insert then import
for each successfully imported block, then the calls made for the block at
which processing stops, nothing for the blocks after it. -/
def specBatchEffs (oracle : Block → POutcome) : Nat → List Block → List Effect
  | _, [] => []
  | h, b :: rest =>
    if b.index = h + 1 then
      match oracle b with
      | .ok => .insertConsensus b :: .importBlock b :: specBatchEffs oracle b.index rest
      | .failed => [.insertConsensus b, .importBlock b]
      | .exc => [.insertConsensus b]
    else []

/-- Whether strict-order processing ends in a raised exception. -/
def specExcB (oracle : Block → POutcome) : Nat → List Block → Bool
  | _, [] => false
  | h, b :: rest =>
    if b.index = h + 1 then
      match oracle b with
      | .ok => specExcB oracle b.index rest
      | .failed => false
      | .exc => true
    else false

/-- The block on which strict-order processing stops iterating: the last
successfully imported block when the whole batch succeeds, otherwise the
first failing or out-of-sequence block (`lb` when the batch is empty). -/
def specStopBlock (oracle : Block → POutcome) :
    Option Block → Nat → List Block → Option Block
  | lb, _, [] => lb
  | _, h, b :: rest =>
    if b.index = h + 1 ∧ oracle b = .ok then specStopBlock oracle (some b) b.index rest
    else some b

/-- An oracle under which every block inserts and imports successfully. -/
def allOk : Block → POutcome := fun _ => .ok

/-- An oracle under which the block with index `n` fails `import_block` and
every other block imports successfully. -/
def failAt (n : Nat) : Block → POutcome :=
  fun b => if b.index = n then .failed else .ok

/-- Strict-order processing never moves the head backwards. -/
theorem specProcessedHead_ge (oracle : Block → POutcome) (h : Nat)
    (l : List Block) : h ≤ specProcessedHead oracle h l := by
  induction l generalizing h with
  | nil => simp [specProcessedHead]
  | cons b rest ih =>
    by_cases hc : b.index = h + 1 ∧ oracle b = .ok
    · rw [specProcessedHead, if_pos hc]
      have h1 := hc.1
      have h2 := ih b.index
      omega
    · rw [specProcessedHead, if_neg hc]

/-- The batch loop of `on_blocks` computes exactly the strict-order
processing the spec describes, component by component. -/
theorem runBatch_eq_spec (oracle : Block → POutcome) (ins : Bool)
    (lb : Option Block) (h : Nat) (data : List Block) :
    runBatch oracle h ins lb data =
      ⟨specProcessedHead oracle h data,
       ins || decide (specProcessedHead oracle h data ≠ h),
       specStopBlock oracle lb h data,
       specExcB oracle h data,
       specBatchEffs oracle h data⟩ := by
  induction data generalizing h ins lb with
  | nil => simp [runBatch, specProcessedHead, specStopBlock, specExcB, specBatchEffs]
  | cons b rest ih =>
    by_cases hidx : b.index = h + 1
    · cases horacle : oracle b with
      | ok =>
        have hmono := specProcessedHead_ge oracle b.index rest
        have hne : specProcessedHead oracle b.index rest ≠ h := by omega
        rw [hidx] at hne
        simp [runBatch, specProcessedHead, specStopBlock, specExcB, specBatchEffs,
          hidx, horacle, process_next_block, ih, hne]
      | failed =>
        simp [runBatch, specProcessedHead, specStopBlock, specExcB, specBatchEffs,
          hidx, horacle, process_next_block]
      | exc =>
        simp [runBatch, specProcessedHead, specStopBlock, specExcB, specBatchEffs,
          hidx, horacle, process_next_block]
    · have hc : ¬(b.index = h + 1 ∧ oracle b = .ok) := fun hh => hidx hh.1
      simp [runBatch, specProcessedHead, specStopBlock, specExcB, specBatchEffs,
        hidx, hc]

/-- On a nonempty batch whose first index matches, `on_blocks` always returns
with the head advanced to the loop's final `my_index` and `syncing` cleared,
whichever branch it exits through. -/
theorem on_blocks_state_eq (oracle : Block → POutcome) (maxB : Nat)
    (s : ClientState) (b0 : Block) (rest : List Block)
    (h1 : b0.index = s.head + 1) :
    (on_blocks oracle maxB s (b0 :: rest)).state =
      { s with head := (runBatch oracle s.head false none (b0 :: rest)).my_index,
               syncing := false } := by
  have hcond : ¬(b0.index ≠ s.head + 1) := by simp [h1]
  simp only [on_blocks]
  rw [if_neg hcond]
  split
  · rfl
  · split
    · split <;> rfl
    · rfl

/-- Keeping `syncing` clear: a handler invocation that starts with the flag
clear ends with it clear. -/
theorem on_blocks_syncing_false (oracle : Block → POutcome) (maxB : Nat)
    (s : ClientState) (data : List Block) (hs : s.syncing = false) :
    (on_blocks oracle maxB s data).state.syncing = false := by
  cases data with
  | nil => simpa [on_blocks] using hs
  | cons b rest =>
    by_cases h1 : b.index = s.head + 1
    · rw [on_blocks_state_eq oracle maxB s b rest h1]
    · simpa [on_blocks, h1] using hs

/-- Keeping `syncing` clear through the namespace guard. -/
theorem ns_on_blocks_syncing_false (oracle : Block → POutcome) (maxB : Nat)
    (s : ClientState) (data : List Block) (hs : s.syncing = false) :
    (ns_on_blocks oracle maxB s data).state.syncing = false := by
  unfold ns_on_blocks
  rw [hs]
  by_cases hd : data.length = 0
  · simpa [hd] using hs
  · simpa [hd] using on_blocks_syncing_false oracle maxB s data hs

/-- C1: whenever the batch handler `YadaWebSocketClient.on_blocks` reaches the
point where it sets the global `syncing` flag — the batch is nonempty and its
first block's index is the local head + 1 — the flag is false again when the
handler returns, on every exit path: normal completion, the
zero-blocks-inserted early return, and any exception raised during
insert/import (caught by `except`, with `finally` clearing the flag). -/
theorem on_blocks_releases_syncing (oracle : Block → POutcome) (maxB : Nat)
    (s : ClientState) (data : List Block) (b0 : Block)
    (h0 : data.head? = some b0) (h1 : b0.index = s.head + 1) :
    (on_blocks oracle maxB s data).state.syncing = false := by
  cases data with
  | nil => cases h0
  | cons b rest =>
    have hb : b = b0 := by simpa using h0
    subst hb
    rw [on_blocks_state_eq oracle maxB s b rest h1]

/-- Witness for C1 at a concrete input. -/
theorem on_blocks_releases_syncing_witness :
    (([⟨11, 0⟩] : List Block).head? = some ⟨11, 0⟩) ∧
    ((⟨11, 0⟩ : Block).index = (⟨10, true, none⟩ : ClientState).head + 1) ∧
    (on_blocks allOk 5 ⟨10, true, none⟩ [⟨11, 0⟩]).state.syncing = false :=
  ⟨rfl, rfl,
    on_blocks_releases_syncing allOk 5 ⟨10, true, none⟩ [⟨11, 0⟩] ⟨11, 0⟩ rfl rfl⟩

/-- C2: while the global `syncing` flag is true, a latest-block announcement
produces no consensus insert/import and no `get_blocks` request, and an
incoming blocks delivery is not processed at all (state unchanged, no
effects); and after a delivery processed from a non-syncing state returns,
the flag is clear again, so a second nonempty delivery is passed through the
guard to the batch handler, observing the updated head. -/
theorem syncing_single_flight (oracle oracle2 : Block → POutcome) (maxB : Nat) :
    (∀ (s : ClientState) (b : Block), s.syncing = true →
      (on_latest_block oracle maxB s b).effects = []) ∧
    (∀ (s : ClientState) (data : List Block), s.syncing = true →
      ns_on_blocks oracle maxB s data = ⟨s, [], false⟩) ∧
    (∀ (s : ClientState) (data1 data2 : List Block), s.syncing = false →
      data2 ≠ [] →
      ns_on_blocks oracle2 maxB (ns_on_blocks oracle maxB s data1).state data2 =
        on_blocks oracle2 maxB (ns_on_blocks oracle maxB s data1).state data2) := by
  refine ⟨?_, ?_, ?_⟩
  · intro s b hs
    simp [on_latest_block, hs]
  · intro s data hs
    simp [ns_on_blocks, hs]
  · intro s data1 data2 hs hd2
    have hsync := ns_on_blocks_syncing_false oracle maxB s data1 hs
    have hlen : data2.length ≠ 0 := by
      cases data2 with
      | nil => exact absurd rfl hd2
      | cons b rest => simp
    generalize (ns_on_blocks oracle maxB s data1).state = st at hsync ⊢
    simp [ns_on_blocks, hsync, hlen]

/-- Witness for C2 at concrete inputs: a syncing state ignores both message
kinds; a completed delivery leaves the flag clear and the next delivery is
passed to the batch handler. -/
theorem syncing_single_flight_witness :
    ((⟨10, true, none⟩ : ClientState).syncing = true) ∧
    (on_latest_block allOk 5 ⟨10, true, none⟩ ⟨11, 0⟩).effects = [] ∧
    ns_on_blocks allOk 5 ⟨10, true, none⟩ [⟨11, 0⟩] = ⟨⟨10, true, none⟩, [], false⟩ ∧
    ns_on_blocks allOk 5 (ns_on_blocks allOk 5 ⟨10, false, none⟩ [⟨11, 0⟩]).state [⟨12, 0⟩] =
      on_blocks allOk 5 (ns_on_blocks allOk 5 ⟨10, false, none⟩ [⟨11, 0⟩]).state [⟨12, 0⟩] :=
  ⟨rfl,
    (syncing_single_flight allOk allOk 5).1 ⟨10, true, none⟩ ⟨11, 0⟩ rfl,
    (syncing_single_flight allOk allOk 5).2.1 ⟨10, true, none⟩ [⟨11, 0⟩] rfl,
    (syncing_single_flight allOk allOk 5).2.2 ⟨10, false, none⟩ [⟨11, 0⟩] [⟨12, 0⟩] rfl
      (List.cons_ne_nil _ _)⟩

/-- C8: the per-role connection limits equal the role table — Seed: 100000
Seed links and 1 SeedGateway link; SeedGateway: 1 Seed and 1 ServiceProvider;
ServiceProvider: 1 SeedGateway and 1 User; User and Miner: 1 ServiceProvider;
every pair not listed has limit 0. -/
theorem type_limit_table :
    type_limit .seed .seed = 100000 ∧
    type_limit .seed .seedGateway = 1 ∧
    type_limit .seedGateway .seed = 1 ∧
    type_limit .seedGateway .serviceProvider = 1 ∧
    type_limit .serviceProvider .seedGateway = 1 ∧
    type_limit .serviceProvider .user = 1 ∧
    type_limit .user .serviceProvider = 1 ∧
    type_limit .miner .serviceProvider = 1 ∧
    (∀ a b : Role,
      (a, b) ∉ ([(.seed, .seed), (.seed, .seedGateway), (.seedGateway, .seed),
        (.seedGateway, .serviceProvider), (.serviceProvider, .seedGateway),
        (.serviceProvider, .user), (.user, .serviceProvider),
        (.miner, .serviceProvider)] : List (Role × Role)) →
      type_limit a b = 0) := by
  refine ⟨rfl, rfl, rfl, rfl, rfl, rfl, rfl, rfl, ?_⟩
  intro a b hab
  cases a <;> cases b <;> simp_all [type_limit]

/-- C10: round-trip of the peer external representation — `Peer.from_dict`
applied to `Peer.to_dict` restores host, port, identity, seed and
seed_gateway (hence the whole `Peer`), whatever rid value was serialized; and
the rid entry of a dictionary never influences `Peer.from_dict`. -/
theorem peer_from_dict_to_dict_roundtrip (p : Peer) (ridVal : Option String) :
    Peer.from_dict (p.to_dict ridVal) = p ∧
    (∀ (d : PeerDict) (r : Option String),
      Peer.from_dict { d with rid := r } = Peer.from_dict d) :=
  ⟨rfl, fun _ _ => rfl⟩

/-- C9: on session start the client emits a `hello` announcement carrying
protocol version 2 and its own reachable host and port, then requests the
remote peer list; and when the peer's host is not recorded as a confirmed
outbound connection once the 20-second wait elapses, `start` disconnects and
returns without entering the listening loop (no marking as reachable happens
in `start`: only the `on_peers` path records outbound confirmation). -/
theorem handshake_hello_then_bounded_wait (ownHost : String) (ownPort : Nat)
    (outbound : List String) (peerHost : String) (h : peerHost ∉ outbound) :
    on_connect ownHost ownPort =
      [.emitHello 2 ownHost ownPort, .emitGetPeers] ∧
    WAIT_FOR_PEERS = 20 ∧
    start outbound peerHost =
      (.earlyDisconnect, [.sleep WAIT_FOR_PEERS, .disconnect]) ∧
    (start outbound peerHost).1 ≠ .listening := by
  refine ⟨rfl, rfl, ?_, ?_⟩ <;> simp [start, h]

/-- Witness for C9 at a concrete input. -/
theorem handshake_hello_then_bounded_wait_witness :
    ("5.6.7.8" ∉ (["1.2.3.4"] : List String)) ∧
    start ["1.2.3.4"] "5.6.7.8" =
      (.earlyDisconnect, [.sleep WAIT_FOR_PEERS, .disconnect]) :=
  ⟨by decide,
    (handshake_hello_then_bounded_wait "h" 80 ["1.2.3.4"] "5.6.7.8" (by decide)).2.2.1⟩

/-- C4 (divergence of the code from the spec's probe policy): with two
gateways both in the ignore set and a starting index of 0, the probe loop
walks past the end of the gateway list and raises IndexError instead of
wrapping modulo N and failing with NoGatewayAvailable after one full cycle;
with an empty gateway set the `% len(...)` raises ZeroDivisionError.  The
loop's wrap branch requires `seed_select >= len + 1`, which the IndexError at
`seed_select = len` always preempts, and its terminating break requires
`num_reset`, which is never set.  (`h = 0` corresponds to a signature whose
digest value is divisible by N.) -/
theorem calculate_seed_gateway_exhaustion_crashes :
    calculate_seed_gateway 0 epoch [⟨"gwA", "ridA"⟩, ⟨"gwB", "ridB"⟩]
        ["ridA", "ridB"] = .error .indexError ∧
    calculate_seed_gateway 0 epoch [] [] = .error .zeroDivision :=
  ⟨by rfl, by rfl⟩

/-- One probe step that immediately finds a non-ignored gateway returns its
index unchanged. -/
theorem probeLoop_found (gws : List GatewayRec) (ignore : List String)
    (fuel s fn : Nat) (nr : Bool) (g : GatewayRec)
    (hget : gws.get? s = some g) (hnig : g.rid ∉ ignore) :
    probeLoop gws ignore (fuel + 1) s nr fn = .ok s := by
  unfold probeLoop
  rw [hget]
  simp [hnig]

/-- C5: with a non-empty gateway set whose entry at the computed index is not
ignored, `calculate_seed_gateway` returns the gateway at insertion-order
position `(h * seed_time) mod N`, where `h` is the unsigned big-integer value
of the SHA-256 digest of the username_signature and
`seed_time = floor((now - epoch) / ttl) + 1`, with `ttl` equal to 3 days
(259200 s) and `epoch = 1602914018`. -/
theorem calculate_seed_gateway_index_formula (h now : Nat)
    (gws : List GatewayRec) (ignore : List String) (g : GatewayRec)
    (hlen : gws.length ≠ 0) (_hnow : epoch ≤ now)
    (hget : gws.get? ((h * seedTime now) % gws.length) = some g)
    (hnig : g.rid ∉ ignore) :
    calculate_seed_gateway h now gws ignore = .ok g ∧
    seedTime now = (now - epoch) / ttl + 1 ∧
    ttl = 259200 ∧ ttl = 3 * 24 * 60 * 60 ∧ epoch = 1602914018 := by
  refine ⟨?_, rfl, rfl, by norm_num [ttl], rfl⟩
  have hfuel : gws.length + 2 = (gws.length + 1) + 1 := rfl
  simp only [calculate_seed_gateway]
  rw [if_neg hlen, hfuel,
    probeLoop_found gws ignore (gws.length + 1) ((h * seedTime now) % gws.length)
      ((h * seedTime now) % gws.length) false g hget hnig]
  rw [List.get?_eq_getElem?] at hget
  simp [hget]

/-- Witness for C5, realizing the spec's worked example: three gateways,
h = 7, a time making seed_time = 5, index (7 * 5) mod 3 = 2, gateway G2
returned. -/
theorem calculate_seed_gateway_index_formula_witness :
    (([⟨"g0", "r0"⟩, ⟨"g1", "r1"⟩, ⟨"g2", "r2"⟩] : List GatewayRec).length ≠ 0) ∧
    seedTime (epoch + 4 * ttl) = 5 ∧
    (7 * seedTime (epoch + 4 * ttl)) % 3 = 2 ∧
    calculate_seed_gateway 7 (epoch + 4 * ttl)
      [⟨"g0", "r0"⟩, ⟨"g1", "r1"⟩, ⟨"g2", "r2"⟩] [] = .ok ⟨"g2", "r2"⟩ :=
  ⟨by decide, by decide, by decide,
    (calculate_seed_gateway_index_formula 7 (epoch + 4 * ttl)
      [⟨"g0", "r0"⟩, ⟨"g1", "r1"⟩, ⟨"g2", "r2"⟩] [] ⟨"g2", "r2"⟩
      (by decide) (by decide) (by decide) (by decide)).1⟩

/-- C3 counterexample: for role User (limit 1 toward ServiceProvider), an
empty stream collection and two candidate providers — the bootstrap
configuration ships exactly two — `ensure_peers_connected` connects to both,
so active ∪ pending afterwards has 2 elements, exceeding the limit. -/
theorem ensure_peers_connected_limit_counterexample :
    ¬((ensure_peers_connected .user ∅ {"spA", "spB"}).card ≤
        type_limit .user (get_outbound_class .user)) := by decide

/-- C3 amended: connect attempts are issued only when the prior count is
below the limit, only for candidates not already known, each marked pending
(so ending up in the resulting collection); when the prior count is at or
above the limit nothing changes; and the resulting count stays within the
limit provided known ∪ candidates has at most limit-many elements — without
that proviso all unknown candidates are attempted and the count can exceed
the limit. -/
theorem ensure_peers_connected_amended (A : Role) (known cands : Finset String) :
    connectAttempts (type_limit A (get_outbound_class A)) known cands ∩ known = ∅ ∧
    connectAttempts (type_limit A (get_outbound_class A)) known cands ⊆
      ensure_peers_connected A known cands ∧
    (type_limit A (get_outbound_class A) ≤ known.card →
      ensure_peers_connected A known cands = known) ∧
    ((known ∪ cands).card ≤ type_limit A (get_outbound_class A) →
      (ensure_peers_connected A known cands).card ≤
        type_limit A (get_outbound_class A)) := by
  refine ⟨?_, ?_, ?_, ?_⟩
  · unfold connectAttempts
    split
    · exact Finset.sdiff_inter_self known cands
    · exact Finset.empty_inter known
  · exact Finset.subset_union_right
  · intro hle
    have hguard : ¬(type_limit A (get_outbound_class A) ≠ 0 ∧
        known.card < type_limit A (get_outbound_class A)) := by
      rintro ⟨-, hlt⟩
      omega
    simp [ensure_peers_connected, connect, connectAttempts, hguard]
  · intro hcard
    refine le_trans (Finset.card_le_card ?_) hcard
    unfold ensure_peers_connected connect connectAttempts
    split
    · exact Finset.union_subset Finset.subset_union_left
        (le_trans Finset.sdiff_subset Finset.subset_union_right)
    · simp

/-- Witness for C3 amended at a concrete input: one candidate within the
limit. -/
theorem ensure_peers_connected_amended_witness :
    ((∅ ∪ {"spA"} : Finset String).card ≤
        type_limit .user (get_outbound_class .user)) ∧
    (ensure_peers_connected .user ∅ {"spA"}).card ≤
      type_limit .user (get_outbound_class .user) :=
  ⟨by decide, (ensure_peers_connected_amended .user ∅ {"spA"}).2.2.2 (by decide)⟩

/-- Auxiliary: the stop block stays present once present. -/
theorem specStopBlock_isSome (oracle : Block → POutcome) :
    ∀ (l : List Block) (lb : Option Block) (h : Nat),
      lb.isSome = true → (specStopBlock oracle lb h l).isSome = true := by
  intro l
  induction l with
  | nil =>
    intro lb h hlb
    simpa [specStopBlock] using hlb
  | cons bl rest ih =>
    intro lb h hlb
    rw [specStopBlock]
    split
    · exact ih (some bl) bl.index rfl
    · rfl

/-- Auxiliary: on a nonempty batch the stop block exists. -/
theorem specStopBlock_cons_isSome (oracle : Block → POutcome) (bl : Block)
    (rest : List Block) (lb : Option Block) (h : Nat) :
    (specStopBlock oracle lb h (bl :: rest)).isSome = true := by
  rw [specStopBlock]
  split
  · exact specStopBlock_isSome oracle rest (some bl) bl.index rfl
  · rfl

/-- Auxiliary: batch-loop effects contain no gossip. -/
theorem specBatchEffs_no_gossip (oracle : Block → POutcome) :
    ∀ (l : List Block) (h : Nat) (g : Block),
      Effect.gossip g ∉ specBatchEffs oracle h l := by
  intro l
  induction l with
  | nil =>
    intro h g
    simp [specBatchEffs]
  | cons bl rest ih =>
    intro h g
    rw [specBatchEffs]
    split
    · cases horacle : oracle bl <;> simp [ih]
    · simp

/-- Auxiliary: batch-loop effects contain no get_blocks request. -/
theorem specBatchEffs_no_getBlocks (oracle : Block → POutcome) :
    ∀ (l : List Block) (h a c : Nat),
      Effect.getBlocks a c ∉ specBatchEffs oracle h l := by
  intro l
  induction l with
  | nil =>
    intro h a c
    simp [specBatchEffs]
  | cons bl rest ih =>
    intro h a c
    rw [specBatchEffs]
    split
    · cases horacle : oracle bl <;> simp [ih]
    · simp

/-- Auxiliary: when the whole batch is successfully imported, the stop block
is the batch's last block. -/
theorem specStopBlock_all_ok (oracle : Block → POutcome) :
    ∀ (l : List Block) (h : Nat) (lb : Option Block),
      specProcessedHead oracle h l = h + l.length → l ≠ [] →
      specStopBlock oracle lb h l = l.getLast? := by
  intro l
  induction l with
  | nil =>
    intro h lb _ hne
    exact absurd rfl hne
  | cons bl rest ih =>
    intro h lb hall hne
    by_cases hc : bl.index = h + 1 ∧ oracle bl = .ok
    · rw [specProcessedHead, if_pos hc] at hall
      rw [specStopBlock, if_pos hc]
      cases rest with
      | nil => simp [specStopBlock]
      | cons b2 r2 =>
        have hlen : (b2 :: r2).length + 1 = (bl :: b2 :: r2).length := rfl
        have hall2 : specProcessedHead oracle bl.index (b2 :: r2) =
            bl.index + (b2 :: r2).length := by
          have hbi := hc.1
          omega
        rw [ih bl.index (some bl) hall2 (List.cons_ne_nil _ _)]
        exact List.getLast?_cons_cons.symm
    · rw [specProcessedHead, if_neg hc] at hall
      have hlen : (bl :: rest).length = rest.length + 1 := rfl
      omega

/-- Characterization of the effect list of `on_blocks` on an accepted batch:
the batch loop's consensus calls, followed — exactly when no exception was
raised and at least one block was inserted — by a gossip of the loop's stop
block and a `get_blocks` request starting at the final head + 1. -/
theorem on_blocks_effects_eq (oracle : Block → POutcome) (maxB : Nat)
    (s : ClientState) (b0 : Block) (rest : List Block)
    (h1 : b0.index = s.head + 1) :
    (on_blocks oracle maxB s (b0 :: rest)).effects =
      (if specExcB oracle s.head (b0 :: rest) = false ∧
          specProcessedHead oracle s.head (b0 :: rest) ≠ s.head then
        specBatchEffs oracle s.head (b0 :: rest) ++
          [Effect.gossip ((specStopBlock oracle none s.head (b0 :: rest)).getD b0),
           Effect.getBlocks (specProcessedHead oracle s.head (b0 :: rest) + 1)
             (specProcessedHead oracle s.head (b0 :: rest) + 1 + maxB)]
      else specBatchEffs oracle s.head (b0 :: rest)) := by
  have hcond : ¬(b0.index ≠ s.head + 1) := by simp [h1]
  simp only [on_blocks]
  rw [if_neg hcond]
  simp only [runBatch_eq_spec]
  by_cases hexc : specExcB oracle s.head (b0 :: rest) = true
  · have hns : ¬(specExcB oracle s.head (b0 :: rest) = false ∧
        specProcessedHead oracle s.head (b0 :: rest) ≠ s.head) := by
      rintro ⟨hf, -⟩
      rw [hexc] at hf
      cases hf
    simp [hexc, hns]
  · have hexf : specExcB oracle s.head (b0 :: rest) = false := by
      simpa using hexc
    by_cases hin : specProcessedHead oracle s.head (b0 :: rest) ≠ s.head
    · obtain ⟨g, hg⟩ := Option.isSome_iff_exists.mp
        (specStopBlock_cons_isSome oracle b0 rest none s.head)
      simp [hexf, hin, hg]
    · have heq : specProcessedHead oracle s.head (b0 :: rest) = s.head := by
        simpa using hin
      simp [hexf, heq]

/-- C6: on a batch whose first block's index is the local head + 1, the
handler processes blocks in strict order — insert_consensus_block then
import_block for each block whose index is the current head + 1, advancing
the head on each success, stopping at the first failed or out-of-sequence
block with nothing processed beyond it — the final head is the last
successfully imported index, every emitted `get_blocks` request starts at
that head + 1, and when the stop was a failed import (no exception) after at
least one insertion, the next-batch request starting there is emitted. -/
theorem on_blocks_strict_order (oracle : Block → POutcome) (maxB : Nat)
    (s : ClientState) (data : List Block) (b0 : Block)
    (h0 : data.head? = some b0) (h1 : b0.index = s.head + 1) :
    (on_blocks oracle maxB s data).state.head =
      specProcessedHead oracle s.head data ∧
    (∃ tail, (on_blocks oracle maxB s data).effects =
        specBatchEffs oracle s.head data ++ tail ∧
      (tail = [] ∨ ∃ g, tail = [Effect.gossip g,
          Effect.getBlocks (specProcessedHead oracle s.head data + 1)
            (specProcessedHead oracle s.head data + 1 + maxB)])) ∧
    (specExcB oracle s.head data = false →
      specProcessedHead oracle s.head data ≠ s.head →
      Effect.getBlocks (specProcessedHead oracle s.head data + 1)
          (specProcessedHead oracle s.head data + 1 + maxB) ∈
        (on_blocks oracle maxB s data).effects) := by
  cases data with
  | nil => cases h0
  | cons b rest =>
    have hb : b = b0 := by simpa using h0
    subst hb
    refine ⟨?_, ?_, ?_⟩
    · rw [on_blocks_state_eq oracle maxB s b rest h1]
      simp [runBatch_eq_spec]
    · rw [on_blocks_effects_eq oracle maxB s b rest h1]
      split
      · exact ⟨_, rfl, Or.inr ⟨_, rfl⟩⟩
      · exact ⟨[], by simp, Or.inl rfl⟩
    · intro hexc hin
      rw [on_blocks_effects_eq oracle maxB s b rest h1, if_pos ⟨hexc, hin⟩]
      simp

/-- Witness for C6 at a concrete input: one-block batch, import succeeds, the
continuation request starts at the new head + 1. -/
theorem on_blocks_strict_order_witness :
    (([⟨11, 0⟩] : List Block).head? = some ⟨11, 0⟩) ∧
    Effect.getBlocks (specProcessedHead allOk 10 [⟨11, 0⟩] + 1)
        (specProcessedHead allOk 10 [⟨11, 0⟩] + 1 + 5) ∈
      (on_blocks allOk 5 ⟨10, false, none⟩ [⟨11, 0⟩]).effects :=
  ⟨rfl, (on_blocks_strict_order allOk 5 ⟨10, false, none⟩ [⟨11, 0⟩] ⟨11, 0⟩
    rfl rfl).2.2 (by decide) (by decide)⟩

/-- C7 counterexample: batch [11, 12] with block 11 imported and block 12
failing import — the head ends at 11, so the last inserted block is block 11,
yet the handler gossips the loop variable left at the failed block 12
(`peers.on_block_insert(block)` after the loop) and never gossips block 11. -/
theorem on_blocks_gossip_counterexample :
    specProcessedHead (failAt 12) 10 [⟨11, 0⟩, ⟨12, 0⟩] = 11 ∧
    Effect.gossip ⟨12, 0⟩ ∈
      (on_blocks (failAt 12) 5 ⟨10, false, none⟩ [⟨11, 0⟩, ⟨12, 0⟩]).effects ∧
    Effect.gossip ⟨11, 0⟩ ∉
      (on_blocks (failAt 12) 5 ⟨10, false, none⟩ [⟨11, 0⟩, ⟨12, 0⟩]).effects := by
  refine ⟨by decide, by decide, by decide⟩

/-- C7 amended: when zero blocks were inserted or an exception was raised
during insert/import, nothing is gossiped and no further batch is requested;
when at least one block was inserted and no exception occurred, the session
gossips the block on which the batch loop stopped — the last inserted block
whenever the whole batch imported successfully, otherwise the failed or
out-of-sequence block — and then requests the next batch starting at the
updated head + 1. -/
theorem on_blocks_gossip_and_continuation (oracle : Block → POutcome)
    (maxB : Nat) (s : ClientState) (data : List Block) (b0 : Block)
    (h0 : data.head? = some b0) (h1 : b0.index = s.head + 1) :
    ((specProcessedHead oracle s.head data = s.head ∨
        specExcB oracle s.head data = true) →
      (∀ g, Effect.gossip g ∉ (on_blocks oracle maxB s data).effects) ∧
      (∀ a c, Effect.getBlocks a c ∉ (on_blocks oracle maxB s data).effects)) ∧
    (specExcB oracle s.head data = false →
      specProcessedHead oracle s.head data ≠ s.head →
      ∃ g, specStopBlock oracle none s.head data = some g ∧
        (on_blocks oracle maxB s data).effects =
          specBatchEffs oracle s.head data ++
            [Effect.gossip g,
             Effect.getBlocks (specProcessedHead oracle s.head data + 1)
               (specProcessedHead oracle s.head data + 1 + maxB)] ∧
        (specProcessedHead oracle s.head data = s.head + data.length →
          data.getLast? = some g)) := by
  cases data with
  | nil => cases h0
  | cons b rest =>
    have hb : b = b0 := by simpa using h0
    subst hb
    constructor
    · intro hz
      have hcond : ¬(specExcB oracle s.head (b :: rest) = false ∧
          specProcessedHead oracle s.head (b :: rest) ≠ s.head) := by
        rcases hz with hz | hz
        · rintro ⟨-, hne⟩
          exact hne hz
        · rintro ⟨hf, -⟩
          rw [hz] at hf
          cases hf
      rw [on_blocks_effects_eq oracle maxB s b rest h1, if_neg hcond]
      exact ⟨fun g => specBatchEffs_no_gossip oracle (b :: rest) s.head g,
        fun a c => specBatchEffs_no_getBlocks oracle (b :: rest) s.head a c⟩
    · intro hexc hin
      obtain ⟨g, hg⟩ := Option.isSome_iff_exists.mp
        (specStopBlock_cons_isSome oracle b rest none s.head)
      refine ⟨g, hg, ?_, ?_⟩
      · rw [on_blocks_effects_eq oracle maxB s b rest h1, if_pos ⟨hexc, hin⟩, hg]
        rfl
      · intro hall
        have hlast := specStopBlock_all_ok oracle (b :: rest) s.head none hall
          (List.cons_ne_nil _ _)
        rw [hg] at hlast
        exact hlast.symm

/-- Witness for C7 amended at a concrete input: a fully successful batch
gossips its last block and requests the continuation. -/
theorem on_blocks_gossip_and_continuation_witness :
    ∃ g, specStopBlock allOk none 10 [⟨11, 0⟩, ⟨12, 1⟩] = some g ∧
      (on_blocks allOk 5 ⟨10, false, none⟩ [⟨11, 0⟩, ⟨12, 1⟩]).effects =
        specBatchEffs allOk 10 [⟨11, 0⟩, ⟨12, 1⟩] ++
          [Effect.gossip g,
           Effect.getBlocks (specProcessedHead allOk 10 [⟨11, 0⟩, ⟨12, 1⟩] + 1)
             (specProcessedHead allOk 10 [⟨11, 0⟩, ⟨12, 1⟩] + 1 + 5)] ∧
      (specProcessedHead allOk 10 [⟨11, 0⟩, ⟨12, 1⟩] =
          10 + ([⟨11, 0⟩, ⟨12, 1⟩] : List Block).length →
        ([⟨11, 0⟩, ⟨12, 1⟩] : List Block).getLast? = some g) :=
  (on_blocks_gossip_and_continuation allOk 5 ⟨10, false, none⟩
    [⟨11, 0⟩, ⟨12, 1⟩] ⟨11, 0⟩ rfl rfl).2 (by decide) (by decide)

end Yada
